import Mathlib

/-!
Verification of the `KeystoreClient` interface contract from
`src/keystore/include/keystore/keystore_client.h`.

The repository contains only the abstract interface (pure virtual methods
plus their documented contracts).  The concrete implementation
(`KeyStoreClientImpl`), the service response codes of `keystore.h`, the
engine error codes of `keymaster_defs.h`, and the `DISALLOW_COPY_AND_ASSIGN`
macro live outside this repository fragment.  Where a claim depends on that
missing behaviour, the definitions below are modelled from the spec; each
such definition says so in its doc comment.  The interface signatures and
the member table of the class are transcribed directly from the header.

Conventions of the embedding:
  - `Status` is the C++ `int32_t` return value; `KM_ERROR_OK = 0` is the
    shared success sentinel (header lines 39-50).
  - key names and data buffers are byte sequences (`std::string` holds
    bytes; the spec imposes no text encoding), embedded as `List Nat`;
  - `AuthorizationSet` is a list of (tag, value) pairs, tags may repeat;
  - service-side nondeterminism (transport failures, back-pressure counts,
    engine verdicts) is passed to each call as an explicit oracle argument.
-/

namespace Keystore

/-- Status code returned by every fallible interface method: the C++
`int32_t`, embedded as `Int` (every code used fits in 32 bits). -/
abbrev Status := Int

/-- Byte buffer (`std::string` used as a byte sequence). -/
abbrev Bytes := List Nat

/-- Key name: an opaque byte string naming a key in the caller's namespace. -/
abbrev KeyName := List Nat

/-- Authorization parameter set: a collection of typed (tag, value) pairs;
tags may repeat for multi-valued tags. -/
abbrev AuthorizationSet := List (Nat × Nat)

/-- Operation handle: a numeric service-assigned token
(`keymaster_operation_handle_t`). -/
abbrev Handle := Nat

/-- Success sentinel shared by every method (header lines 43-47:
"KM_ERROR_OK is 0, which is a common convention for success"). -/
def KM_ERROR_OK : Status := 0

/-- Modelled from the spec: `keymaster_defs.h` is not under `src/`; the
engine error domain has `KM_ERROR_OK = 0` and negative failure codes. -/
def KM_ERROR_ROOT_OF_TRUST_ALREADY_SET : Status := -1

/-- Modelled from the spec: engine code for unsupported algorithm
parameters (`keymaster_defs.h`, not under `src/`). -/
def KM_ERROR_UNSUPPORTED_ALGORITHM : Status := -4

/-- Modelled from the spec: engine code for a key-format mismatch
(`keymaster_defs.h`, not under `src/`). -/
def KM_ERROR_UNSUPPORTED_KEY_FORMAT : Status := -13

/-- Modelled from the spec: engine code returned for any call on a handle
that is unknown or already terminated (`keymaster_defs.h`, not under
`src/`). -/
def KM_ERROR_INVALID_OPERATION_HANDLE : Status := -28

/-- Modelled from the spec: engine code reported when a verify-purpose
`finishOperation` finds a signature mismatch (`keymaster_defs.h`, not under
`src/`). -/
def KM_ERROR_VERIFICATION_FAILED : Status := -30

/-- Modelled from the spec: engine code for malformed imported key material
(`keymaster_defs.h`, not under `src/`). -/
def KM_ERROR_INVALID_KEY_BLOB : Status := -33

/-- Modelled from the spec: generic engine failure code
(`keymaster_defs.h`, not under `src/`). -/
def KM_ERROR_UNKNOWN_ERROR : Status := -1000

/-- Modelled from the spec: service response code for a generic service
failure (`keystore.h` ResponseCode, not under `src/`). -/
def ResponseCode_SYSTEM_ERROR : Status := 4

/-- Modelled from the spec: service response code for an unknown key name
(`keystore.h` ResponseCode, not under `src/`). -/
def ResponseCode_KEY_NOT_FOUND : Status := 7

/-- Modelled from the spec: the cryptographic-engine error domain of
`keymaster_defs.h` (not under `src/`): `0` meaning `KM_ERROR_OK` plus the
negative failure codes, `-1` among them (`KM_ERROR_ROOT_OF_TRUST_ALREADY_SET`). -/
def keymasterErrorDomain : List Int :=
  [0, -1, -4, -13, -28, -30, -33, -38, -1000]

/-- Modelled from the spec: the service-transport response-code domain
(`keystore.h` ResponseCode values 1..10, not under `src/`) together with
the plain `0` and `-1` that binder methods also return (header lines
40-43: "or just 0 or -1 (both of which conflict with keymaster_error_t)"). -/
def serviceResponseDomain : List Int :=
  [0, -1, 1, 2, 3, 4, 5, 6, 7, 8, 9, 10]

/-- Status convention of the interface (header lines 39-47): `0` is the
shared success sentinel, and every other status is a failure drawn from
one of the two overlapping underlying error domains. -/
def statusWellFormed (e : Status) : Prop :=
  e = KM_ERROR_OK ∨
    (e ≠ KM_ERROR_OK ∧ (e ∈ serviceResponseDomain ∨ e ∈ keymasterErrorDomain))

instance (e : Status) : Decidable (statusWellFormed e) := by
  unfold statusWellFormed; infer_instance

/-- Stored key record. Modelled from the spec: the backing service (not
under `src/`) keeps, per key, its material and the hardware/software split
of its enforced characteristics, plus the algorithm chosen at creation. -/
structure KeyRecord where
  algorithm : Nat
  material : Bytes
  hwChars : AuthorizationSet
  swChars : AuthorizationSet
  deriving DecidableEq, Repr

/-- Lifecycle phase of an operation handle that the service has issued:
`begun` (accepting update/finish/abort) or `terminated` (invalid for
further use).  A handle absent from the state is in the spec's NONE phase. -/
inductive OpPhase
  | begun
  | terminated
  deriving DecidableEq, Repr

/-- Per-handle operation record: its phase and the bytes fed to the
operation so far (used to state the no-loss/no-reorder property of the
update loop). -/
structure OpState where
  phase : OpPhase
  fed : Bytes
  deriving DecidableEq, Repr

/-- State of the key store visible through one client's namespace.
Modelled from the spec: the backing service (not under `src/`) owns the
key map, the open operation handles and the entropy pool; the client
itself is stateless.  `keys` is an association list whose order is the
stable, implementation-defined enumeration order of `listKeys`. -/
structure ClientState where
  keys : List (KeyName × KeyRecord)
  ops : List (Handle × OpState)
  nextHandle : Handle
  entropyPool : Bytes
  deriving DecidableEq, Repr

/-- Replaces the record of handle `h` in an association list of operation
records, applying `f` to the first binding of `h` and keeping the rest. -/
def updateOps (h : Handle) (f : OpState → OpState) :
    List (Handle × OpState) → List (Handle × OpState)
  | [] => []
  | (k, v) :: rest =>
      if k = h then (k, f v) :: rest else (k, v) :: updateOps h f rest

/-- KM_TAG_ALGORITHM. Modelled from the spec: tag numbering comes from
`keymaster_defs.h` (not under `src/`); the exact number is irrelevant to
the claims. -/
def KM_TAG_ALGORITHM : Nat := 268435458

/-- Algorithms accepted by the underlying engine (RSA, EC, AES, HMAC).
Modelled from the spec: the engine is not under `src/`. -/
def supportedAlgorithms : List Nat := [1, 3, 32, 128]

/-- Symmetric algorithms (AES, HMAC), whose keys have no exportable public
portion.  Modelled from the spec: "Fails if the key is symmetric and
non-exportable". -/
def symmetricAlgorithms : List Nat := [32, 128]

/-- Key formats accepted for import (KM_KEY_FORMAT_X509 = 0,
KM_KEY_FORMAT_PKCS8 = 1, KM_KEY_FORMAT_RAW = 3).  Modelled from the spec:
`keymaster_defs.h` is not under `src/`. -/
def supportedKeyFormats : List Nat := [0, 1, 3]

/-- Algorithm requested by a parameter set: the first KM_TAG_ALGORITHM
entry, or 0 when absent. -/
def requestedAlgorithm (params : AuthorizationSet) : Nat :=
  (List.lookup KM_TAG_ALGORITHM params).getD 0

/-- Whether the engine supports a parameter set.  Modelled from the spec:
generation "Fails ... if parameters are unsupported by the underlying
engine"; the engine is not under `src/`.  The model requires a supported
algorithm tag. -/
def paramsSupported (params : AuthorizationSet) : Bool :=
  supportedAlgorithms.contains (requestedAlgorithm params)

/-- Characteristic split of an accepted parameter set: the hardware-backed
root of trust enforces the algorithm binding, software enforces the rest.
Modelled from the spec: the split is computed by the service/engine, not
under `src/`. -/
def hwSplit (params : AuthorizationSet) : AuthorizationSet :=
  params.filter (fun kv => kv.1 == KM_TAG_ALGORITHM)

/-- Software-enforced part of the characteristic split (see `hwSplit`). -/
def swSplit (params : AuthorizationSet) : AuthorizationSet :=
  params.filter (fun kv => kv.1 != KM_TAG_ALGORITHM)

/-- Mixes caller-supplied bytes into the service's random-number
generator; no output parameters (header lines 56-58).  Modelled from the
spec: the implementation is not under `src/`. -/
def addRandomNumberGeneratorEntropy (s : ClientState) (entropy : Bytes) :
    Status × ClientState :=
  (KM_ERROR_OK, { s with entropyPool := s.entropyPool ++ entropy })

/-- Result of `generateKey`/`importKey`: the status, the new service
state, and the two caller-provided characteristic-set output objects. -/
structure KeyGenResult where
  status : Status
  state : ClientState
  hwChars : AuthorizationSet
  swChars : AuthorizationSet
  deriving DecidableEq, Repr

/-- Generates a key named `name` from `params` (header lines 60-68).
Modelled from the spec: the implementation is not under `src/`.  Fails
when `name` already exists (service-defined code) or when the parameters
are unsupported by the engine; on success it stores the key and populates
the caller's two characteristic-set objects, whose previous contents are
`prevHW` and `prevSW` and are left untouched on failure. -/
def generateKey (s : ClientState) (name : KeyName) (params : AuthorizationSet)
    (prevHW prevSW : AuthorizationSet) : KeyGenResult :=
  if (List.lookup name s.keys).isSome then
    ⟨ResponseCode_SYSTEM_ERROR, s, prevHW, prevSW⟩
  else if paramsSupported params then
    let kr : KeyRecord :=
      ⟨requestedAlgorithm params, [0], hwSplit params, swSplit params⟩
    ⟨KM_ERROR_OK, { s with keys := s.keys ++ [(name, kr)] },
      kr.hwChars, kr.swChars⟩
  else
    ⟨KM_ERROR_UNSUPPORTED_ALGORITHM, s, prevHW, prevSW⟩

/-- Result of `getKeyCharacteristics`: status plus the two caller-provided
characteristic-set output objects. -/
structure CharsResult where
  status : Status
  hwChars : AuthorizationSet
  swChars : AuthorizationSet
  deriving DecidableEq, Repr

/-- Provides the characteristic split of an existing key (header lines
70-76).  Modelled from the spec: the implementation is not under `src/`. -/
def getKeyCharacteristics (s : ClientState) (name : KeyName)
    (prevHW prevSW : AuthorizationSet) : CharsResult :=
  match List.lookup name s.keys with
  | none => ⟨ResponseCode_KEY_NOT_FOUND, prevHW, prevSW⟩
  | some kr => ⟨KM_ERROR_OK, kr.hwChars, kr.swChars⟩

/-- Imports `keyData` in `keyFormat` under `name` (header lines 78-87).
Modelled from the spec: the implementation is not under `src/`.  Fails on
an existing name, malformed (empty) key data, an unsupported format, or
unsupported parameters. -/
def importKey (s : ClientState) (name : KeyName) (params : AuthorizationSet)
    (keyFormat : Nat) (keyData : Bytes)
    (prevHW prevSW : AuthorizationSet) : KeyGenResult :=
  if (List.lookup name s.keys).isSome then
    ⟨ResponseCode_SYSTEM_ERROR, s, prevHW, prevSW⟩
  else if keyData.isEmpty then
    ⟨KM_ERROR_INVALID_KEY_BLOB, s, prevHW, prevSW⟩
  else if !supportedKeyFormats.contains keyFormat then
    ⟨KM_ERROR_UNSUPPORTED_KEY_FORMAT, s, prevHW, prevSW⟩
  else if paramsSupported params then
    let kr : KeyRecord :=
      ⟨requestedAlgorithm params, keyData, hwSplit params, swSplit params⟩
    ⟨KM_ERROR_OK, { s with keys := s.keys ++ [(name, kr)] },
      kr.hwChars, kr.swChars⟩
  else
    ⟨KM_ERROR_UNSUPPORTED_ALGORITHM, s, prevHW, prevSW⟩

/-- Exports the public portion of the key named `name` (header lines
89-93).  Modelled from the spec: the implementation is not under `src/`.
Fails when the key does not exist or is symmetric; `prevData` is the
caller's output buffer, untouched on failure. -/
def exportKey (s : ClientState) (exportFormat : Nat) (name : KeyName)
    (prevData : Bytes) : Status × Bytes :=
  match List.lookup name s.keys with
  | none => (ResponseCode_KEY_NOT_FOUND, prevData)
  | some kr =>
      if symmetricAlgorithms.contains kr.algorithm then
        (KM_ERROR_UNSUPPORTED_KEY_FORMAT, prevData)
      else
        (KM_ERROR_OK, kr.material)

/-- Deletes the key named `name` (header lines 95-97).  Modelled from the
spec: the implementation is not under `src/`; deleting a nonexistent key
is a defined failure, and no other key is affected. -/
def deleteKey (s : ClientState) (name : KeyName) : Status × ClientState :=
  if (List.lookup name s.keys).isSome then
    (KM_ERROR_OK, { s with keys := s.keys.filter (fun kv => kv.1 != name) })
  else
    (ResponseCode_KEY_NOT_FOUND, s)

/-- Deletes all keys in the caller's namespace (header lines 99-101).
Modelled from the spec: the implementation is not under `src/`. -/
def deleteAllKeys (s : ClientState) : Status × ClientState :=
  (KM_ERROR_OK, { s with keys := [] })

/-- Existence probe (header lines 139-141): true iff the key exists,
false on any error.  Modelled from the spec: the implementation is not
under `src/`; `transportError` is the oracle for an underlying failure,
which the probe collapses to `false` with no exception and no error code
(its return type is `Bool`, not `Status`). -/
def doesKeyExist (s : ClientState) (transportError : Bool)
    (name : KeyName) : Bool :=
  if transportError then false
  else (List.lookup name s.keys).isSome

/-- Lists all key names starting with `pfx` (header lines 143-145).
Modelled from the spec: the implementation is not under `src/`; the names
come back in the stable enumeration order of the store. -/
def listKeys (s : ClientState) (pfx : KeyName) : Bool × List KeyName :=
  (true, (s.keys.map Prod.fst).filter (fun n => pfx.isPrefixOf n))

/-- Result of `beginOperation`: status, new service state, the caller's
output-parameter object and the caller's handle object. -/
structure BeginResult where
  status : Status
  state : ClientState
  outParams : AuthorizationSet
  handle : Handle
  deriving DecidableEq, Repr

/-- Begins a cryptographic operation of type `purpose` on key `name`
(header lines 103-111).  Modelled from the spec: the implementation is not
under `src/`.  On success a fresh handle in `begun` phase is issued and
the output parameters the service wishes to communicate (e.g. a generated
IV, tag 1001 in the model) are populated; on failure the caller's objects
`prevOut` and `prevHandle` are untouched. -/
def beginOperation (s : ClientState) (purpose : Nat) (name : KeyName)
    (inputParams : AuthorizationSet)
    (prevOut : AuthorizationSet) (prevHandle : Handle) : BeginResult :=
  match List.lookup name s.keys with
  | none => ⟨ResponseCode_KEY_NOT_FOUND, s, prevOut, prevHandle⟩
  | some _ =>
      let h := s.nextHandle
      ⟨KM_ERROR_OK,
        { s with ops := s.ops ++ [(h, ⟨OpPhase.begun, []⟩)],
                 nextHandle := h + 1 },
        [(1001, purpose)], h⟩

/-- Result of `updateOperation`: status, new service state, and the
caller's three output objects (bytes-consumed count, output parameters,
output data). -/
structure UpdateResult where
  status : Status
  state : ClientState
  bytesConsumed : Nat
  outParams : AuthorizationSet
  outputData : Bytes
  deriving DecidableEq, Repr

/-- Feeding step on one operation record: append the first `c` bytes of
`d` to the bytes already fed, keeping the phase. -/
def consumeInto (d : Bytes) (c : Nat) (o : OpState) : OpState :=
  ⟨o.phase, o.fed ++ d.take c⟩

/-- Continues the operation of `h` with `inputData` (header lines
113-122).  Modelled from the spec: the implementation is not under
`src/`.  `consume` is the oracle for how many bytes the service elects to
accept this round (back-pressure); the service never consumes more than
supplied.  A handle that is unknown or terminated yields a failure and
leaves the caller's output objects (`prevConsumed`, `prevOut`,
`prevData`) untouched. -/
def updateOperation (s : ClientState) (h : Handle)
    (inputParams : AuthorizationSet) (inputData : Bytes) (consume : Nat)
    (prevConsumed : Nat) (prevOut : AuthorizationSet) (prevData : Bytes) :
    UpdateResult :=
  match List.lookup h s.ops with
  | none => ⟨KM_ERROR_INVALID_OPERATION_HANDLE, s, prevConsumed, prevOut, prevData⟩
  | some op =>
      match op.phase with
      | OpPhase.terminated =>
          ⟨KM_ERROR_INVALID_OPERATION_HANDLE, s, prevConsumed, prevOut, prevData⟩
      | OpPhase.begun =>
          let c := min consume inputData.length
          ⟨KM_ERROR_OK,
            { s with ops := updateOps h (consumeInto inputData c) s.ops },
            c, inputParams, inputData.take c⟩

/-- Result of `finishOperation`: status, new service state, and the
caller's two output objects. -/
structure FinishResult where
  status : Status
  state : ClientState
  outParams : AuthorizationSet
  outputData : Bytes
  deriving DecidableEq, Repr

/-- Finalizes the operation of `h` (header lines 124-133).  Modelled from
the spec: the implementation is not under `src/`.  `engineAccepts` is the
oracle for the engine's verdict (e.g. whether `signatureToVerify`
matches); a mismatch is a failure status, not a boolean.  Whether the
verdict is success or failure, a known live handle is moved to the
`terminated` phase; only on success are the caller's output objects
(previously `prevOut`, `prevData`) populated. -/
def finishOperation (s : ClientState) (h : Handle)
    (inputParams : AuthorizationSet) (signatureToVerify : Bytes)
    (engineAccepts : Bool)
    (prevOut : AuthorizationSet) (prevData : Bytes) : FinishResult :=
  match List.lookup h s.ops with
  | none => ⟨KM_ERROR_INVALID_OPERATION_HANDLE, s, prevOut, prevData⟩
  | some op =>
      match op.phase with
      | OpPhase.terminated =>
          ⟨KM_ERROR_INVALID_OPERATION_HANDLE, s, prevOut, prevData⟩
      | OpPhase.begun =>
          let s' : ClientState :=
            { s with ops :=
                updateOps h (fun o => ⟨OpPhase.terminated, o.fed⟩) s.ops }
          if engineAccepts then
            ⟨KM_ERROR_OK, s', inputParams, op.fed⟩
          else
            ⟨KM_ERROR_VERIFICATION_FAILED, s', prevOut, prevData⟩

/-- Aborts the operation of `h` (header lines 135-137).  Modelled from
the spec: the implementation is not under `src/`.  `serviceFails` is the
oracle for the service reporting a failure status for the abort itself;
even then a known live handle is invalidated (moved to `terminated`). -/
def abortOperation (s : ClientState) (h : Handle) (serviceFails : Bool) :
    Status × ClientState :=
  match List.lookup h s.ops with
  | none => (KM_ERROR_INVALID_OPERATION_HANDLE, s)
  | some op =>
      match op.phase with
      | OpPhase.terminated => (KM_ERROR_INVALID_OPERATION_HANDLE, s)
      | OpPhase.begun =>
          ((if serviceFails then ResponseCode_SYSTEM_ERROR else KM_ERROR_OK),
            { s with ops :=
                updateOps h (fun o => ⟨OpPhase.terminated, o.fed⟩) s.ops })

/-- Conforming caller loop around `updateOperation` (header lines
113-122, spec section 8 item 4): while input remains, submit it, and on
success resubmit exactly the unconsumed remainder.  `oracle` carries the
service's per-round consumed counts; `fuel` bounds the rounds so the
recursion is structural. -/
def feedRemainder : Nat → ClientState → Handle → Bytes → List Nat →
    Status × ClientState
  | _, s, _, [], _ => (KM_ERROR_OK, s)
  | 0, s, _, _ :: _, _ => (KM_ERROR_UNKNOWN_ERROR, s)
  | fuel + 1, s, h, b :: input, oracle =>
      let r := updateOperation s h [] (b :: input) (oracle.headD 1) 0 [] []
      if r.status = KM_ERROR_OK then
        feedRemainder fuel r.state h ((b :: input).drop r.bytesConsumed) oracle.tail
      else
        (r.status, r.state)

/-- Accessibility of a C++ class member. -/
inductive Access
  | pub
  | priv
  deriving DecidableEq, Repr

/-- Member kinds of the `KeystoreClient` class, one per declaration in
the header. -/
inductive MemberKind
  | defaultCtor
  | virtualDtor
  | mAddRandomNumberGeneratorEntropy
  | mGenerateKey
  | mGetKeyCharacteristics
  | mImportKey
  | mExportKey
  | mDeleteKey
  | mDeleteAllKeys
  | mBeginOperation
  | mUpdateOperation
  | mFinishOperation
  | mAbortOperation
  | mDoesKeyExist
  | mListKeys
  | copyCtor
  | copyAssign
  deriving DecidableEq, Repr

/-- Declared member of a C++ class: its kind, access level, and whether
it is explicitly deleted. -/
structure ClassMember where
  kind : MemberKind
  access : Access
  deleted : Bool
  deriving DecidableEq, Repr

/-- Member table of the `KeystoreClient` class, transcribed from header
lines 51-149: a public default constructor, a public virtual destructor,
the thirteen public pure-virtual methods, and — in the private section —
the `DISALLOW_COPY_AND_ASSIGN(KeystoreClient)` line.  The expansion of
that macro is modelled from the spec ("explicit deletion of
copy/assignment operations"; the macro itself is not under `src/`): it
declares the copy constructor and the copy-assignment operator deleted. -/
def keystoreClientMembers : List ClassMember :=
  [⟨MemberKind.defaultCtor, Access.pub, false⟩,
   ⟨MemberKind.virtualDtor, Access.pub, false⟩,
   ⟨MemberKind.mAddRandomNumberGeneratorEntropy, Access.pub, false⟩,
   ⟨MemberKind.mGenerateKey, Access.pub, false⟩,
   ⟨MemberKind.mGetKeyCharacteristics, Access.pub, false⟩,
   ⟨MemberKind.mImportKey, Access.pub, false⟩,
   ⟨MemberKind.mExportKey, Access.pub, false⟩,
   ⟨MemberKind.mDeleteKey, Access.pub, false⟩,
   ⟨MemberKind.mDeleteAllKeys, Access.pub, false⟩,
   ⟨MemberKind.mBeginOperation, Access.pub, false⟩,
   ⟨MemberKind.mUpdateOperation, Access.pub, false⟩,
   ⟨MemberKind.mFinishOperation, Access.pub, false⟩,
   ⟨MemberKind.mAbortOperation, Access.pub, false⟩,
   ⟨MemberKind.mDoesKeyExist, Access.pub, false⟩,
   ⟨MemberKind.mListKeys, Access.pub, false⟩,
   ⟨MemberKind.copyCtor, Access.priv, true⟩,
   ⟨MemberKind.copyAssign, Access.priv, true⟩]

/-- A member is an available operation of the interface for client code
iff it is public and not deleted. -/
def availableToClients (m : ClassMember) : Bool :=
  m.access == Access.pub && !m.deleted

/-! Helper lemmas about association-list lookup and `updateOps`. -/

theorem lookup_updateOps_self (h : Handle) (f : OpState → OpState) :
    ∀ l : List (Handle × OpState),
      List.lookup h (updateOps h f l) = (List.lookup h l).map f := by
  intro l
  induction l with
  | nil => rfl
  | cons kv rest ih =>
      obtain ⟨k, v⟩ := kv
      by_cases hk : k = h
      · subst hk
        simp [updateOps, List.lookup]
      · have hk' : (h == k) = false := by
          simp [beq_iff_eq]
          exact fun he => hk he.symm
        simp [updateOps, hk, List.lookup, hk', ih]

theorem lookup_append_right {α β : Type} [BEq α] (a : α)
    (l₁ l₂ : List (α × β)) (hnone : List.lookup a l₁ = none) :
    List.lookup a (l₁ ++ l₂) = List.lookup a l₂ := by
  induction l₁ with
  | nil => rfl
  | cons kv rest ih =>
      obtain ⟨k, v⟩ := kv
      by_cases hb : (a == k) = true
      · simp [List.lookup, hb] at hnone
      · simp only [Bool.not_eq_true] at hb
        simp only [List.lookup, hb] at hnone
        simp only [List.cons_append, List.lookup, hb]
        exact ih hnone

/-- C5: `doesKeyExist` returns `false` both when the key is genuinely
absent (whatever the transport does) and whenever an underlying error
occurs, even on an existing key; being a total `Bool`-valued function it
raises no exception and returns no distinguishing error code, so `false`
cannot separate "does not exist" from "error occurred". -/
theorem doesKeyExist_collapses_errors (s : ClientState) (name : KeyName) :
    (List.lookup name s.keys = none →
        ∀ transportError, doesKeyExist s transportError name = false) ∧
    doesKeyExist s true name = false := by
  constructor
  · intro habs transportError
    cases transportError <;> simp [doesKeyExist, habs]
  · rfl

/-- Witness for C5: the probe reports `false` at a concrete absent key,
and `false` under a concrete transport error on a state that does hold
the key. -/
theorem doesKeyExist_collapses_errors_witness :
    doesKeyExist ⟨[], [], 0, []⟩ false [107] = false ∧
    doesKeyExist ⟨[([107], ⟨1, [0], [], []⟩)], [], 0, []⟩ true [107] = false :=
  ⟨(doesKeyExist_collapses_errors ⟨[], [], 0, []⟩ [107]).1 rfl false,
   (doesKeyExist_collapses_errors ⟨[([107], ⟨1, [0], [], []⟩)], [], 0, []⟩ [107]).2⟩

/-- C6: a successful `listKeys pfx` returns exactly the key names of the
namespace having `pfx` as a literal prefix, the empty prefix returns
every name, and a repeated call on the same (unmutated) state returns
the same list in the same order. -/
theorem listKeys_prefix_semantics (s : ClientState) (pfx : KeyName) :
    (listKeys s pfx).1 = true ∧
    (∀ n : KeyName,
      n ∈ (listKeys s pfx).2 ↔ n ∈ s.keys.map Prod.fst ∧ pfx <+: n) ∧
    (listKeys s []).2 = s.keys.map Prod.fst ∧
    listKeys s pfx = listKeys s pfx := by
  refine ⟨rfl, ?_, ?_, rfl⟩
  · intro n
    simp only [listKeys, List.mem_filter]
    exact and_congr_right fun _ => List.isPrefixOf_iff_prefix
  · simp only [listKeys]
    exact List.filter_eq_self.mpr fun a _ => by cases a <;> rfl

/-- C7: deleting a key that does not exist returns a nonzero (failure)
status and leaves the whole key store — hence every other key — exactly
as it was. -/
theorem deleteKey_nonexistent_fails (s : ClientState) (name : KeyName)
    (habs : List.lookup name s.keys = none) :
    (deleteKey s name).1 ≠ KM_ERROR_OK ∧ (deleteKey s name).2 = s := by
  simp [deleteKey, habs, ResponseCode_KEY_NOT_FOUND, KM_ERROR_OK]

/-- Witness for C7: deleting from a concrete store that lacks the name
fails and leaves the store's other key untouched. -/
theorem deleteKey_nonexistent_fails_witness :
    (deleteKey ⟨[([1], ⟨1, [0], [], []⟩)], [], 0, []⟩ [2]).1 ≠ KM_ERROR_OK ∧
    (deleteKey ⟨[([1], ⟨1, [0], [], []⟩)], [], 0, []⟩ [2]).2 =
      ⟨[([1], ⟨1, [0], [], []⟩)], [], 0, []⟩ :=
  deleteKey_nonexistent_fails ⟨[([1], ⟨1, [0], [], []⟩)], [], 0, []⟩ [2] (by decide)

/-- C1: every interface operation shares the single success sentinel
`KM_ERROR_OK = 0`: each method's returned status is either exactly `0`
(success) or a nonzero failure code drawn from one of the two underlying
error domains (service response codes or engine error codes), and those
two domains genuinely overlap (both contain `0` and `-1` with different
meanings). -/
theorem status_single_success_sentinel :
    (∀ s e, statusWellFormed (addRandomNumberGeneratorEntropy s e).1) ∧
    (∀ s n p a b, statusWellFormed (generateKey s n p a b).status) ∧
    (∀ s n a b, statusWellFormed (getKeyCharacteristics s n a b).status) ∧
    (∀ s n p f d a b, statusWellFormed (importKey s n p f d a b).status) ∧
    (∀ s f n d, statusWellFormed (exportKey s f n d).1) ∧
    (∀ s n, statusWellFormed (deleteKey s n).1) ∧
    (∀ s, statusWellFormed (deleteAllKeys s).1) ∧
    (∀ s p n ip po ph, statusWellFormed (beginOperation s p n ip po ph).status) ∧
    (∀ s h ip d c pc po pd,
      statusWellFormed (updateOperation s h ip d c pc po pd).status) ∧
    (∀ s h ip sig ea po pd,
      statusWellFormed (finishOperation s h ip sig ea po pd).status) ∧
    (∀ s h sf, statusWellFormed (abortOperation s h sf).1) ∧
    ((0 : Int) ∈ serviceResponseDomain ∧ (0 : Int) ∈ keymasterErrorDomain ∧
      (-1 : Int) ∈ serviceResponseDomain ∧ (-1 : Int) ∈ keymasterErrorDomain ∧
      KM_ERROR_OK = 0) := by
  have wfOK : statusWellFormed KM_ERROR_OK := by decide
  have wfSysErr : statusWellFormed ResponseCode_SYSTEM_ERROR := by decide
  have wfNotFound : statusWellFormed ResponseCode_KEY_NOT_FOUND := by decide
  have wfUnsupAlg : statusWellFormed KM_ERROR_UNSUPPORTED_ALGORITHM := by decide
  have wfInvalidBlob : statusWellFormed KM_ERROR_INVALID_KEY_BLOB := by decide
  have wfUnsupFormat : statusWellFormed KM_ERROR_UNSUPPORTED_KEY_FORMAT := by
    decide
  have wfInvalidHandle : statusWellFormed KM_ERROR_INVALID_OPERATION_HANDLE := by
    decide
  have wfVerifFailed : statusWellFormed KM_ERROR_VERIFICATION_FAILED := by decide
  refine ⟨?_, ?_, ?_, ?_, ?_, ?_, ?_, ?_, ?_, ?_, ?_, by decide⟩
  · intro s e
    exact wfOK
  · intro s n p a b
    unfold generateKey
    repeat' split
    all_goals first
      | exact wfOK | exact wfSysErr | exact wfNotFound | exact wfUnsupAlg
      | exact wfInvalidBlob | exact wfUnsupFormat | exact wfInvalidHandle
      | exact wfVerifFailed
  · intro s n a b
    unfold getKeyCharacteristics
    repeat' split
    all_goals first
      | exact wfOK | exact wfSysErr | exact wfNotFound | exact wfUnsupAlg
      | exact wfInvalidBlob | exact wfUnsupFormat | exact wfInvalidHandle
      | exact wfVerifFailed
  · intro s n p f d a b
    unfold importKey
    repeat' split
    all_goals first
      | exact wfOK | exact wfSysErr | exact wfNotFound | exact wfUnsupAlg
      | exact wfInvalidBlob | exact wfUnsupFormat | exact wfInvalidHandle
      | exact wfVerifFailed
  · intro s f n d
    unfold exportKey
    repeat' split
    all_goals first
      | exact wfOK | exact wfSysErr | exact wfNotFound | exact wfUnsupAlg
      | exact wfInvalidBlob | exact wfUnsupFormat | exact wfInvalidHandle
      | exact wfVerifFailed
  · intro s n
    unfold deleteKey
    repeat' split
    all_goals first | exact wfOK | exact wfNotFound
  · intro s
    exact wfOK
  · intro s p n ip po ph
    unfold beginOperation
    repeat' split
    all_goals first | exact wfOK | exact wfNotFound
  · intro s h ip d c pc po pd
    unfold updateOperation
    repeat' split
    all_goals first | exact wfOK | exact wfInvalidHandle
  · intro s h ip sig ea po pd
    unfold finishOperation
    repeat' split
    all_goals first | exact wfOK | exact wfInvalidHandle | exact wfVerifFailed
  · intro s h sf
    unfold abortOperation
    repeat' split
    all_goals
      first
        | exact wfOK | exact wfInvalidHandle | exact wfSysErr
        | (cases sf
           · exact wfSysErr
           · exact wfOK)

/-- C8: `generateKey` fails when the name is already taken or the
parameters are unsupported by the engine; when it returns the success
status, the key now exists in the store and both caller-provided
characteristic-set objects are populated with the created key's
hardware/software split. -/
theorem generateKey_contract (s : ClientState) (name : KeyName)
    (params prevHW prevSW : AuthorizationSet) :
    ((List.lookup name s.keys).isSome →
        (generateKey s name params prevHW prevSW).status ≠ KM_ERROR_OK) ∧
    (paramsSupported params = false →
        (generateKey s name params prevHW prevSW).status ≠ KM_ERROR_OK) ∧
    ((generateKey s name params prevHW prevSW).status = KM_ERROR_OK →
      ∃ kr : KeyRecord,
        List.lookup name (generateKey s name params prevHW prevSW).state.keys
          = some kr ∧
        (generateKey s name params prevHW prevSW).hwChars = kr.hwChars ∧
        (generateKey s name params prevHW prevSW).swChars = kr.swChars ∧
        doesKeyExist (generateKey s name params prevHW prevSW).state false name
          = true) := by
  cases hl : List.lookup name s.keys with
  | some v =>
      refine ⟨fun _ => ?_, fun _ => ?_, fun hok => ?_⟩ <;>
        simp [generateKey, hl, ResponseCode_SYSTEM_ERROR, KM_ERROR_OK] at *
  | none =>
      by_cases hp : paramsSupported params
      · refine ⟨fun hsome => ?_, fun hunsup => ?_, fun _ => ?_⟩
        · simp at hsome
        · rw [hp] at hunsup
          simp at hunsup
        · refine ⟨⟨requestedAlgorithm params, [0], hwSplit params, swSplit params⟩,
            ?_, ?_, ?_, ?_⟩ <;>
            simp [generateKey, hl, hp, doesKeyExist,
              lookup_append_right name s.keys _ hl, List.lookup]
      · have hp' : paramsSupported params = false := by
          simpa using hp
        refine ⟨fun hsome => ?_, fun _ => ?_, fun hok => ?_⟩
        · simp at hsome
        · simp [generateKey, hl, hp', KM_ERROR_UNSUPPORTED_ALGORITHM, KM_ERROR_OK]
        · simp [generateKey, hl, hp', KM_ERROR_UNSUPPORTED_ALGORITHM,
            KM_ERROR_OK] at hok

/-- Witness for C8: generating a fresh RSA key in an empty store
succeeds, creates the key, and populates the characteristic outputs. -/
theorem generateKey_contract_witness :
    ∃ kr : KeyRecord,
      List.lookup [107]
          (generateKey ⟨[], [], 0, []⟩ [107] [(KM_TAG_ALGORITHM, 1)] [] []).state.keys
        = some kr ∧
      (generateKey ⟨[], [], 0, []⟩ [107] [(KM_TAG_ALGORITHM, 1)] [] []).hwChars
        = kr.hwChars ∧
      (generateKey ⟨[], [], 0, []⟩ [107] [(KM_TAG_ALGORITHM, 1)] [] []).swChars
        = kr.swChars ∧
      doesKeyExist
          (generateKey ⟨[], [], 0, []⟩ [107] [(KM_TAG_ALGORITHM, 1)] [] []).state
          false [107] = true :=
  (generateKey_contract ⟨[], [], 0, []⟩ [107] [(KM_TAG_ALGORITHM, 1)] [] []).2.2
    (by decide)

/-- C9: in the transcribed member table of the `KeystoreClient` class,
the copy constructor and the copy-assignment operator are declared
private and deleted, so neither is an available operation of the
interface for client code: a client instance cannot be duplicated or
assigned. -/
theorem keystoreClient_not_copyable :
    (∀ m ∈ keystoreClientMembers,
        (m.kind = MemberKind.copyCtor ∨ m.kind = MemberKind.copyAssign) →
          availableToClients m = false) ∧
    (⟨MemberKind.copyCtor, Access.priv, true⟩ : ClassMember)
        ∈ keystoreClientMembers ∧
    (⟨MemberKind.copyAssign, Access.priv, true⟩ : ClassMember)
        ∈ keystoreClientMembers := by
  decide

/-- Witness for C9: the declared copy constructor itself is not available
to clients. -/
theorem keystoreClient_not_copyable_witness :
    availableToClients ⟨MemberKind.copyCtor, Access.priv, true⟩ = false :=
  keystoreClient_not_copyable.1 ⟨MemberKind.copyCtor, Access.priv, true⟩
    (by decide) (Or.inl rfl)

theorem lookup_append_left {α β : Type} [BEq α] (a : α) (v : β)
    (l₁ l₂ : List (α × β)) (hsome : List.lookup a l₁ = some v) :
    List.lookup a (l₁ ++ l₂) = some v := by
  induction l₁ with
  | nil => simp [List.lookup] at hsome
  | cons kv rest ih =>
      obtain ⟨k, w⟩ := kv
      by_cases hb : (a == k) = true
      · simp only [List.lookup, hb] at hsome
        simp only [List.cons_append, List.lookup, hb]
        exact hsome
      · simp only [Bool.not_eq_true] at hb
        simp only [List.lookup, hb] at hsome
        simp only [List.cons_append, List.lookup, hb]
        exact ih hsome

/-- Dead-handle rejection: every `updateOperation`, `finishOperation` or
`abortOperation` call on a handle that the service does not know, or
knows as terminated, returns a failure status and changes nothing. -/
theorem dead_handle_rejects (t : ClientState) (h : Handle)
    (hdead : List.lookup h t.ops = none ∨
      ∃ op', List.lookup h t.ops = some op' ∧ op'.phase = OpPhase.terminated) :
    (∀ ip d c pc po pd,
      (updateOperation t h ip d c pc po pd).status ≠ KM_ERROR_OK) ∧
    (∀ ip sig ea po pd,
      (finishOperation t h ip sig ea po pd).status ≠ KM_ERROR_OK) ∧
    (∀ sf, (abortOperation t h sf).1 ≠ KM_ERROR_OK) := by
  rcases hdead with hnone | ⟨op', hsome, hterm⟩
  · refine ⟨?_, ?_, ?_⟩ <;> intros <;>
      simp [updateOperation, finishOperation, abortOperation, hnone,
        KM_ERROR_INVALID_OPERATION_HANDLE, KM_ERROR_OK]
  · obtain ⟨phx, fd⟩ := op'
    simp only at hterm
    subst hterm
    refine ⟨?_, ?_, ?_⟩ <;> intros <;>
      simp [updateOperation, finishOperation, abortOperation, hsome,
        KM_ERROR_INVALID_OPERATION_HANDLE, KM_ERROR_OK]

/-- Terminating the first binding of a live handle is visible through
lookup. -/
theorem terminated_after_updateOps (t : ClientState) (h : Handle)
    (op : OpState) (hsome : List.lookup h t.ops = some op) :
    List.lookup h (updateOps h (fun o => ⟨OpPhase.terminated, o.fed⟩) t.ops)
      = some ⟨OpPhase.terminated, op.fed⟩ := by
  rw [lookup_updateOps_self, hsome]
  rfl

/-- Aborting any handle the service knows leaves that handle in the
terminated phase, whatever status the abort reports. -/
theorem abort_invalidates (t : ClientState) (h : Handle) (sf : Bool)
    (op : OpState) (hsome : List.lookup h t.ops = some op) :
    List.lookup h (abortOperation t h sf).2.ops
      = some ⟨OpPhase.terminated, op.fed⟩ := by
  obtain ⟨phx, fd⟩ := op
  cases phx with
  | terminated => simp [abortOperation, hsome]
  | begun =>
      have hst : (abortOperation t h sf).2 =
          { t with ops := updateOps h (fun o => ⟨OpPhase.terminated, o.fed⟩) t.ops } := by
        cases sf <;> simp [abortOperation, hsome]
      rw [hst]
      simpa using terminated_after_updateOps t h ⟨OpPhase.begun, fd⟩ hsome

/-- C2: every `finishOperation` call — success or failure — leaves its
handle terminated: if the service knew the handle it is in the
terminated phase afterwards, and any subsequent `finishOperation` or
`abortOperation` on the same handle returns a failure status. -/
theorem finishOperation_always_invalidates_handle (s : ClientState)
    (h : Handle) (ip : AuthorizationSet) (sig : Bytes) (ea : Bool)
    (po : AuthorizationSet) (pd : Bytes) :
    ((List.lookup h s.ops).isSome →
      ∃ op', List.lookup h (finishOperation s h ip sig ea po pd).state.ops
          = some op' ∧ op'.phase = OpPhase.terminated) ∧
    (∀ ip' sig' ea' po' pd',
      (finishOperation (finishOperation s h ip sig ea po pd).state
          h ip' sig' ea' po' pd').status ≠ KM_ERROR_OK) ∧
    (∀ sf, (abortOperation (finishOperation s h ip sig ea po pd).state
        h sf).1 ≠ KM_ERROR_OK) := by
  cases hsome : List.lookup h s.ops with
  | none =>
      have hstate : (finishOperation s h ip sig ea po pd).state = s := by
        simp [finishOperation, hsome]
      have hdead := dead_handle_rejects s h (Or.inl hsome)
      refine ⟨fun hs => by simp at hs, ?_, ?_⟩
      · intro ip' sig' ea' po' pd'
        rw [hstate]
        exact hdead.2.1 ip' sig' ea' po' pd'
      · intro sf
        rw [hstate]
        exact hdead.2.2 sf
  | some op =>
      obtain ⟨phx, fd⟩ := op
      cases phx with
      | terminated =>
          have hstate : (finishOperation s h ip sig ea po pd).state = s := by
            simp [finishOperation, hsome]
          have hdead := dead_handle_rejects s h
            (Or.inr ⟨⟨OpPhase.terminated, fd⟩, hsome, rfl⟩)
          refine ⟨fun _ => ⟨⟨OpPhase.terminated, fd⟩, by rw [hstate]; exact hsome, rfl⟩,
            ?_, ?_⟩
          · intro ip' sig' ea' po' pd'
            rw [hstate]
            exact hdead.2.1 ip' sig' ea' po' pd'
          · intro sf
            rw [hstate]
            exact hdead.2.2 sf
      | begun =>
          have hstate : (finishOperation s h ip sig ea po pd).state =
              { s with ops :=
                updateOps h (fun o => ⟨OpPhase.terminated, o.fed⟩) s.ops } := by
            cases ea <;> simp [finishOperation, hsome]
          have hlook : List.lookup h
              (finishOperation s h ip sig ea po pd).state.ops
                = some ⟨OpPhase.terminated, fd⟩ := by
            rw [hstate]
            simpa using terminated_after_updateOps s h ⟨OpPhase.begun, fd⟩ hsome
          have hdead := dead_handle_rejects
            (finishOperation s h ip sig ea po pd).state h
            (Or.inr ⟨⟨OpPhase.terminated, fd⟩, hlook, rfl⟩)
          exact ⟨fun _ => ⟨⟨OpPhase.terminated, fd⟩, hlook, rfl⟩,
            hdead.2.1, hdead.2.2⟩

/-- Witness for C2: finishing the one live operation of a concrete state
terminates its handle, and repeating the finish afterwards fails. -/
theorem finishOperation_always_invalidates_handle_witness :
    (∃ op', List.lookup 0
        (finishOperation ⟨[], [(0, ⟨OpPhase.begun, [5]⟩)], 1, []⟩
          0 [] [] true [] []).state.ops = some op' ∧
        op'.phase = OpPhase.terminated) ∧
    (finishOperation
        (finishOperation ⟨[], [(0, ⟨OpPhase.begun, [5]⟩)], 1, []⟩
          0 [] [] true [] []).state 0 [] [] true [] []).status ≠ KM_ERROR_OK :=
  ⟨(finishOperation_always_invalidates_handle
      ⟨[], [(0, ⟨OpPhase.begun, [5]⟩)], 1, []⟩ 0 [] [] true [] []).1 (by decide),
   (finishOperation_always_invalidates_handle
      ⟨[], [(0, ⟨OpPhase.begun, [5]⟩)], 1, []⟩ 0 [] [] true [] []).2.1
      [] [] true [] []⟩

/-- C3: aborting the handle returned by a successful `beginOperation`
leaves that handle terminated — whatever status the abort reports — and
every subsequent `updateOperation`, `finishOperation` or
`abortOperation` on it returns a failure status. -/
theorem abortOperation_after_begin_invalidates_handle (s : ClientState)
    (purpose : Nat) (name : KeyName) (ip po : AuthorizationSet)
    (ph : Handle) (sf : Bool)
    (hok : (beginOperation s purpose name ip po ph).status = KM_ERROR_OK) :
    (∃ op', List.lookup (beginOperation s purpose name ip po ph).handle
        (abortOperation (beginOperation s purpose name ip po ph).state
          (beginOperation s purpose name ip po ph).handle sf).2.ops
        = some op' ∧ op'.phase = OpPhase.terminated) ∧
    (∀ ip' d c pc po' pd,
      (updateOperation
        (abortOperation (beginOperation s purpose name ip po ph).state
          (beginOperation s purpose name ip po ph).handle sf).2
        (beginOperation s purpose name ip po ph).handle
        ip' d c pc po' pd).status ≠ KM_ERROR_OK) ∧
    (∀ ip' sig ea po' pd,
      (finishOperation
        (abortOperation (beginOperation s purpose name ip po ph).state
          (beginOperation s purpose name ip po ph).handle sf).2
        (beginOperation s purpose name ip po ph).handle
        ip' sig ea po' pd).status ≠ KM_ERROR_OK) ∧
    (∀ sf',
      (abortOperation
        (abortOperation (beginOperation s purpose name ip po ph).state
          (beginOperation s purpose name ip po ph).handle sf).2
        (beginOperation s purpose name ip po ph).handle sf').1
        ≠ KM_ERROR_OK) := by
  cases hn : List.lookup name s.keys with
  | none =>
      exfalso
      simp [beginOperation, hn, ResponseCode_KEY_NOT_FOUND, KM_ERROR_OK] at hok
  | some kr =>
      have hstate : (beginOperation s purpose name ip po ph).state =
          { s with ops := s.ops ++ [(s.nextHandle, ⟨OpPhase.begun, []⟩)],
                   nextHandle := s.nextHandle + 1 } := by
        simp [beginOperation, hn]
      have hhdl : (beginOperation s purpose name ip po ph).handle
          = s.nextHandle := by
        simp [beginOperation, hn]
      obtain ⟨opx, hopx⟩ : ∃ opx,
          List.lookup s.nextHandle
            (s.ops ++ [(s.nextHandle, ⟨OpPhase.begun, []⟩)]) = some opx := by
        cases hl : List.lookup s.nextHandle s.ops with
        | some v => exact ⟨v, lookup_append_left _ _ _ _ hl⟩
        | none =>
            refine ⟨⟨OpPhase.begun, []⟩, ?_⟩
            rw [lookup_append_right _ _ _ hl]
            simp [List.lookup]
      have hopx' : List.lookup (beginOperation s purpose name ip po ph).handle
          (beginOperation s purpose name ip po ph).state.ops = some opx := by
        rw [hstate, hhdl]
        exact hopx
      have habort := abort_invalidates
        (beginOperation s purpose name ip po ph).state
        (beginOperation s purpose name ip po ph).handle sf opx hopx'
      have hdead := dead_handle_rejects
        (abortOperation (beginOperation s purpose name ip po ph).state
          (beginOperation s purpose name ip po ph).handle sf).2
        (beginOperation s purpose name ip po ph).handle
        (Or.inr ⟨⟨OpPhase.terminated, opx.fed⟩, habort, rfl⟩)
      exact ⟨⟨⟨OpPhase.terminated, opx.fed⟩, habort, rfl⟩,
        hdead.1, hdead.2.1, hdead.2.2⟩

/-- Witness for C3: in a concrete one-key store, begin succeeds, the
abort terminates the returned handle, and a subsequent update on it
fails. -/
theorem abortOperation_after_begin_invalidates_handle_witness :
    (∃ op', List.lookup
        (beginOperation ⟨[([107], ⟨1, [0], [], []⟩)], [], 0, []⟩ 2 [107] [] [] 99).handle
        (abortOperation
          (beginOperation ⟨[([107], ⟨1, [0], [], []⟩)], [], 0, []⟩ 2 [107] [] [] 99).state
          (beginOperation ⟨[([107], ⟨1, [0], [], []⟩)], [], 0, []⟩ 2 [107] [] [] 99).handle
          false).2.ops = some op' ∧ op'.phase = OpPhase.terminated) ∧
    (updateOperation
        (abortOperation
          (beginOperation ⟨[([107], ⟨1, [0], [], []⟩)], [], 0, []⟩ 2 [107] [] [] 99).state
          (beginOperation ⟨[([107], ⟨1, [0], [], []⟩)], [], 0, []⟩ 2 [107] [] [] 99).handle
          false).2
        (beginOperation ⟨[([107], ⟨1, [0], [], []⟩)], [], 0, []⟩ 2 [107] [] [] 99).handle
        [] [9] 1 0 [] []).status ≠ KM_ERROR_OK :=
  ⟨(abortOperation_after_begin_invalidates_handle
      ⟨[([107], ⟨1, [0], [], []⟩)], [], 0, []⟩ 2 [107] [] [] 99 false (by decide)).1,
   (abortOperation_after_begin_invalidates_handle
      ⟨[([107], ⟨1, [0], [], []⟩)], [], 0, []⟩ 2 [107] [] [] 99 false (by decide)).2.1
      [] [9] 1 0 [] []⟩

/-- C10: every operation with caller-provided output locations populates
them only on the success status; whenever the returned status is
nonzero, each caller-provided output object still holds exactly its
previous value. -/
theorem outputs_unchanged_on_failure :
    (∀ s n p a b, (generateKey s n p a b).status ≠ KM_ERROR_OK →
      (generateKey s n p a b).hwChars = a ∧ (generateKey s n p a b).swChars = b) ∧
    (∀ s n p f d a b, (importKey s n p f d a b).status ≠ KM_ERROR_OK →
      (importKey s n p f d a b).hwChars = a ∧
      (importKey s n p f d a b).swChars = b) ∧
    (∀ s n a b, (getKeyCharacteristics s n a b).status ≠ KM_ERROR_OK →
      (getKeyCharacteristics s n a b).hwChars = a ∧
      (getKeyCharacteristics s n a b).swChars = b) ∧
    (∀ s f n d, (exportKey s f n d).1 ≠ KM_ERROR_OK →
      (exportKey s f n d).2 = d) ∧
    (∀ s p n ip po ph, (beginOperation s p n ip po ph).status ≠ KM_ERROR_OK →
      (beginOperation s p n ip po ph).outParams = po ∧
      (beginOperation s p n ip po ph).handle = ph) ∧
    (∀ s h ip d c pc po pd,
      (updateOperation s h ip d c pc po pd).status ≠ KM_ERROR_OK →
      (updateOperation s h ip d c pc po pd).bytesConsumed = pc ∧
      (updateOperation s h ip d c pc po pd).outParams = po ∧
      (updateOperation s h ip d c pc po pd).outputData = pd) ∧
    (∀ s h ip sig ea po pd,
      (finishOperation s h ip sig ea po pd).status ≠ KM_ERROR_OK →
      (finishOperation s h ip sig ea po pd).outParams = po ∧
      (finishOperation s h ip sig ea po pd).outputData = pd) := by
  refine ⟨?_, ?_, ?_, ?_, ?_, ?_, ?_⟩
  · intro s n p a b
    unfold generateKey
    repeat' split
    all_goals intro hfail
    all_goals first | exact ⟨rfl, rfl⟩ | exact absurd rfl hfail
  · intro s n p f d a b
    unfold importKey
    repeat' split
    all_goals intro hfail
    all_goals first | exact ⟨rfl, rfl⟩ | exact absurd rfl hfail
  · intro s n a b
    unfold getKeyCharacteristics
    repeat' split
    all_goals intro hfail
    all_goals first | exact ⟨rfl, rfl⟩ | exact absurd rfl hfail
  · intro s f n d
    unfold exportKey
    repeat' split
    all_goals intro hfail
    all_goals first | rfl | exact absurd rfl hfail
  · intro s p n ip po ph
    unfold beginOperation
    repeat' split
    all_goals intro hfail
    all_goals first | exact ⟨rfl, rfl⟩ | exact absurd rfl hfail
  · intro s h ip d c pc po pd
    unfold updateOperation
    repeat' split
    all_goals intro hfail
    all_goals first | exact ⟨rfl, rfl, rfl⟩ | exact absurd rfl hfail
  · intro s h ip sig ea po pd
    unfold finishOperation
    repeat' split
    all_goals intro hfail
    all_goals first | exact ⟨rfl, rfl⟩ | exact absurd rfl hfail

/-- Witness for C10: two concrete failing calls — generating over an
existing name, and updating an unknown handle — leave the caller's
output objects exactly as they were. -/
theorem outputs_unchanged_on_failure_witness :
    ((generateKey ⟨[([107], ⟨1, [0], [], []⟩)], [], 0, []⟩ [107]
        [(KM_TAG_ALGORITHM, 1)] [(5, 5)] [(6, 6)]).hwChars = [(5, 5)] ∧
      (generateKey ⟨[([107], ⟨1, [0], [], []⟩)], [], 0, []⟩ [107]
        [(KM_TAG_ALGORITHM, 1)] [(5, 5)] [(6, 6)]).swChars = [(6, 6)]) ∧
    ((updateOperation ⟨[], [], 0, []⟩ 3 [] [1, 2] 2 42 [(7, 7)] [9]).bytesConsumed
        = 42 ∧
      (updateOperation ⟨[], [], 0, []⟩ 3 [] [1, 2] 2 42 [(7, 7)] [9]).outParams
        = [(7, 7)] ∧
      (updateOperation ⟨[], [], 0, []⟩ 3 [] [1, 2] 2 42 [(7, 7)] [9]).outputData
        = [9]) :=
  ⟨outputs_unchanged_on_failure.1 ⟨[([107], ⟨1, [0], [], []⟩)], [], 0, []⟩ [107]
      [(KM_TAG_ALGORITHM, 1)] [(5, 5)] [(6, 6)] (by decide),
   outputs_unchanged_on_failure.2.2.2.2.2.1 ⟨[], [], 0, []⟩ 3 [] [1, 2] 2 42
      [(7, 7)] [9] (by decide)⟩

/-- Update loop completion: starting from any state in which handle `h`
is live, a conforming caller that always resubmits exactly the
unconsumed remainder drives the whole input into the operation (the fed
bytes grow by exactly the input, in order), provided the service makes
progress (each oracle count is at least one byte) and the fuel covers
the worst case of one byte per round. -/
theorem feedRemainder_complete :
    ∀ (fuel : Nat) (s : ClientState) (h : Handle) (input : Bytes)
      (oracle : List Nat) (op : OpState),
      List.lookup h s.ops = some op → op.phase = OpPhase.begun →
      (∀ x ∈ oracle, 1 ≤ x) → input.length ≤ fuel →
      ∃ s', feedRemainder fuel s h input oracle = (KM_ERROR_OK, s') ∧
        List.lookup h s'.ops = some ⟨OpPhase.begun, op.fed ++ input⟩ := by
  intro fuel
  induction fuel with
  | zero =>
      intro s h input oracle op hl hp ho hlen
      have hnil : input = [] := List.eq_nil_of_length_eq_zero (Nat.le_zero.mp hlen)
      subst hnil
      refine ⟨s, rfl, ?_⟩
      rw [hl]
      obtain ⟨phx, fd⟩ := op
      simp only at hp
      subst hp
      simp
  | succ n ih =>
      intro s h input oracle op hl hp ho hlen
      cases input with
      | nil =>
          refine ⟨s, rfl, ?_⟩
          rw [hl]
          obtain ⟨phx, fd⟩ := op
          simp only at hp
          subst hp
          simp
      | cons b rest =>
          obtain ⟨phx, fd⟩ := op
          simp only at hp
          subst hp
          have hc1 : 1 ≤ oracle.headD 1 := by
            cases oracle with
            | nil => simp
            | cons a t =>
                simpa using ho a (List.mem_cons_self a t)
          have hcmin : 1 ≤ min (oracle.headD 1) (b :: rest).length :=
            Nat.le_min.mpr ⟨hc1, Nat.succ_le_succ (Nat.zero_le _)⟩
          have hupd : updateOperation s h [] (b :: rest) (oracle.headD 1) 0 [] []
              = ⟨KM_ERROR_OK,
                  { s with ops := updateOps h (consumeInto (b :: rest) (min (oracle.headD 1) (b :: rest).length)) s.ops },
                  min (oracle.headD 1) (b :: rest).length, [],
                  (b :: rest).take (min (oracle.headD 1) (b :: rest).length)⟩ := by
            simp [updateOperation, hl]
          have hlook' : List.lookup h
              (updateOps h (consumeInto (b :: rest) (min (oracle.headD 1) (b :: rest).length)) s.ops)
              = some ⟨OpPhase.begun,
                  fd ++ (b :: rest).take (min (oracle.headD 1) (b :: rest).length)⟩ := by
            rw [lookup_updateOps_self, hl]
            rfl
          have htail : ∀ x ∈ oracle.tail, 1 ≤ x :=
            fun x hx => ho x (List.mem_of_mem_tail hx)
          have hlen' :
              ((b :: rest).drop (min (oracle.headD 1) (b :: rest).length)).length
                ≤ n := by
            rw [List.length_drop]
            omega
          obtain ⟨s', hfeed, hfinal⟩ := ih
            { s with ops := updateOps h (consumeInto (b :: rest) (min (oracle.headD 1) (b :: rest).length)) s.ops }
            h
            ((b :: rest).drop (min (oracle.headD 1) (b :: rest).length))
            oracle.tail
            ⟨OpPhase.begun,
              fd ++ (b :: rest).take (min (oracle.headD 1) (b :: rest).length)⟩
            hlook' rfl htail hlen'
          refine ⟨s', ?_, ?_⟩
          · show (let r := updateOperation s h [] (b :: rest) (oracle.headD 1) 0 [] []
              if r.status = KM_ERROR_OK then
                feedRemainder n r.state h ((b :: rest).drop r.bytesConsumed) oracle.tail
              else (r.status, r.state)) = (KM_ERROR_OK, s')
            rw [hupd]
            simpa using hfeed
          · rw [hfinal]
            simp [List.append_assoc, List.take_append_drop]

/-- C4: `updateOperation` never consumes more bytes than supplied, can
genuinely consume strictly fewer (back-pressure), and the conforming
caller loop that resubmits exactly the unconsumed remainder eventually
feeds the operation the entire original input — no bytes lost,
duplicated or reordered. -/
theorem updateOperation_backpressure_loop :
    (∀ s h ip d c pc po pd,
      (updateOperation s h ip d c pc po pd).status = KM_ERROR_OK →
      (updateOperation s h ip d c pc po pd).bytesConsumed ≤ d.length) ∧
    ((updateOperation ⟨[], [(0, ⟨OpPhase.begun, []⟩)], 1, []⟩
        0 [] [1, 2, 3] 1 0 [] []).status = KM_ERROR_OK ∧
      (updateOperation ⟨[], [(0, ⟨OpPhase.begun, []⟩)], 1, []⟩
        0 [] [1, 2, 3] 1 0 [] []).bytesConsumed < 3) ∧
    (∀ (fuel : Nat) (s : ClientState) (h : Handle) (input : Bytes)
      (oracle : List Nat) (op : OpState),
      List.lookup h s.ops = some op → op.phase = OpPhase.begun →
      (∀ x ∈ oracle, 1 ≤ x) → input.length ≤ fuel →
      ∃ s', feedRemainder fuel s h input oracle = (KM_ERROR_OK, s') ∧
        List.lookup h s'.ops = some ⟨OpPhase.begun, op.fed ++ input⟩) := by
  have hne : KM_ERROR_INVALID_OPERATION_HANDLE ≠ KM_ERROR_OK := by decide
  refine ⟨?_, by decide, feedRemainder_complete⟩
  intro s h ip d c pc po pd
  unfold updateOperation
  repeat' split
  all_goals intro hok
  all_goals first
    | exact absurd hok hne
    | exact Nat.min_le_right c d.length

/-- Witness for C4: on a concrete live handle, a three-byte input driven
by per-round consumed counts 1, 1, 1 is fed completely and in order. -/
theorem updateOperation_backpressure_loop_witness :
    ∃ s', feedRemainder 3 ⟨[], [(0, ⟨OpPhase.begun, [7]⟩)], 1, []⟩
        0 [1, 2, 3] [1, 1, 1] = (KM_ERROR_OK, s') ∧
      List.lookup 0 s'.ops = some ⟨OpPhase.begun, [7, 1, 2, 3]⟩ :=
  updateOperation_backpressure_loop.2.2 3
    ⟨[], [(0, ⟨OpPhase.begun, [7]⟩)], 1, []⟩ 0 [1, 2, 3] [1, 1, 1]
    ⟨OpPhase.begun, [7]⟩ (by decide) rfl (by decide) (by decide)

end Keystore
